import Mathlib

/-
Verification of the cbuildrt sandbox runner (src/src/main.rs).

The program is modelled by a shallow embedding: Rust paths become `RPath`
(a root flag plus a list of components, mirroring `std::path::Path`
semantics), syscalls performed by straight-line code become explicit event
lists in program order, the PID-1 reap loop becomes a recursion over the
finite list of wait statuses the kernel delivers, and every Rust panic
(`unwrap`/`expect`/out-of-bounds indexing) becomes `Option.none` or a
dedicated `panicked` outcome.
-/

namespace Cbuildrt

/-- A Rust `Path`/`PathBuf`, reduced to the information the program
inspects: whether the path has a root (starts with "/") and its list of
normal components.  `Path::new("/dev/")` is `⟨true, ["dev"]⟩`,
`Path::new("tty")` is `⟨false, ["tty"]⟩`. -/
structure RPath where
  absolute : Bool
  components : List String
deriving DecidableEq, Repr

/-- Rust `Path::join`: an absolute right-hand side replaces the left-hand
side, a relative one is appended. -/
def RPath.join (l r : RPath) : RPath :=
  if r.absolute then r else ⟨l.absolute, l.components ++ r.components⟩

/-- Rust `path.strip_prefix("/")`: succeeds exactly when the path has a
root, returning the same components as a relative path; `Err` (hence a
panic under `.unwrap()`) otherwise. -/
def stripRoot (p : RPath) : Option RPath :=
  if p.absolute then some ⟨false, p.components⟩ else none

/-- The helper `concat_absolute` from main.rs:
`lhs.as_ref().join(rhs.as_ref().strip_prefix("/").unwrap())`.
`none` models the `unwrap` panic on a relative `rhs`. -/
def concat_absolute (lhs rhs : RPath) : Option RPath :=
  (stripRoot rhs).map (RPath.join lhs)

/-- C9: the path-joining helper `concat_absolute` accepts exactly the
absolute second arguments: for an absolute `rhs` it returns `lhs` extended
by `rhs`'s components (so the result stays under `lhs` and is never the
bare host root when `lhs` has components), and for a relative `rhs` the
`unwrap` panics, aborting the run. -/
theorem concat_absolute_spec (lhs rhs : RPath) :
    (rhs.absolute = true →
      concat_absolute lhs rhs =
        some ⟨lhs.absolute, lhs.components ++ rhs.components⟩) ∧
    (rhs.absolute = false → concat_absolute lhs rhs = none) := by
  constructor
  · intro h
    simp [concat_absolute, stripRoot, h, RPath.join]
  · intro h
    simp [concat_absolute, stripRoot, h]

/-- Witness for C9 at concrete paths: an absolute destination lands under
the left-hand side, a relative one panics. -/
theorem concat_absolute_spec_witness :
    concat_absolute ⟨true, ["sandbox"]⟩ ⟨true, ["data"]⟩ =
      some ⟨true, ["sandbox"] ++ ["data"]⟩ ∧
    concat_absolute ⟨true, ["sandbox"]⟩ ⟨false, ["data"]⟩ = none :=
  ⟨(concat_absolute_spec ⟨true, ["sandbox"]⟩ ⟨true, ["data"]⟩).1 rfl,
   (concat_absolute_spec ⟨true, ["sandbox"]⟩ ⟨false, ["data"]⟩).2 rfl⟩

/-- Rust `struct User` from main.rs (numeric uid and gid). -/
structure User where
  uid : Nat
  gid : Nat
deriving DecidableEq, Repr

/-- Rust `struct Process` from main.rs. -/
structure Process where
  args : List String
deriving DecidableEq, Repr

/-- Rust `struct BindMount` from main.rs. -/
structure BindMount where
  destination : RPath
  source : RPath
deriving DecidableEq, Repr

/-- Rust `struct Config` from main.rs. -/
structure Config where
  rootfs : RPath
  user : User
  process : Process
  bind_mounts : List BindMount
deriving DecidableEq, Repr

/-- The subset of `nix::mount::MsFlags` the program uses, as a record of
booleans. -/
structure MsFlags where
  bind : Bool
  remount : Bool
  rdonly : Bool
  recursive : Bool
deriving DecidableEq, Repr

def MS_BIND : MsFlags := ⟨true, false, false, false⟩

def MS_REMOUNT : MsFlags := ⟨false, true, false, false⟩

def MS_RDONLY : MsFlags := ⟨false, false, true, false⟩

def MS_REC : MsFlags := ⟨false, false, false, true⟩

/-- The bitwise-or operator on `MsFlags`. -/
def MsFlags.union (a b : MsFlags) : MsFlags :=
  ⟨a.bind || b.bind, a.remount || b.remount, a.rdonly || b.rdonly,
   a.recursive || b.recursive⟩

/-- Rust `MsFlags::empty()`. -/
def MsFlags.emptyFlags : MsFlags := ⟨false, false, false, false⟩

/-- One call to `nix::mount::mount`, in the argument order of the source:
source path (if any), target path, filesystem type (if any), flags. -/
structure MountCall where
  source : Option RPath
  target : RPath
  fstype : Option String
  flags : MsFlags
deriving DecidableEq, Repr

/-- Rust `Path::new("/dev/")`. -/
def devSlash : RPath := ⟨true, ["dev"]⟩

/-- The fixed device allow-list `dev_overlays` from run_init. -/
def dev_overlays : List String :=
  ["tty", "null", "zero", "full", "random", "urandom"]

/-- First rootfs mount: bind rootfs onto itself with `MS_BIND` only. -/
def rootBindCall (cfg : Config) : MountCall :=
  { source := some cfg.rootfs, target := cfg.rootfs, fstype := none,
    flags := MS_BIND }

/-- Second rootfs mount: remount with `MS_REMOUNT | MS_BIND | MS_RDONLY`. -/
def rootRemountCall (cfg : Config) : MountCall :=
  { source := some cfg.rootfs, target := cfg.rootfs, fstype := none,
    flags := (MS_REMOUNT.union MS_BIND).union MS_RDONLY }

/-- One iteration of the device-overlay loop: bind-mount
`Path::new("/dev/").join(f)` onto `concat_absolute(rootfs, "/dev/").join(f)`. -/
def devMountCall (cfg : Config) (f : String) : Option MountCall :=
  (concat_absolute cfg.rootfs devSlash).map (fun d =>
    { source := some (RPath.join devSlash ⟨false, [f]⟩),
      target := RPath.join d ⟨false, [f]⟩, fstype := none,
      flags := MS_BIND })

/-- Rust `Path::new("/etc/resolv.conf")` as an `RPath`. -/
def resolvConfPath : RPath := ⟨true, ["etc", "resolv.conf"]⟩

/-- Bind-mount of the canonicalized host resolv.conf (passed in as
`resolved`, the result of `std::fs::canonicalize`) onto
`concat_absolute(rootfs, "/etc/resolv.conf")`. -/
def resolvMountCall (cfg : Config) (resolved : RPath) : Option MountCall :=
  (concat_absolute cfg.rootfs resolvConfPath).map (fun t =>
    { source := some resolved, target := t, fstype := none,
      flags := MS_BIND })

/-- Fresh filesystem mount (`devpts` or `tmpfs`) with no source and empty
flags, at `concat_absolute(rootfs, at_)`. -/
def freshFsMountCall (cfg : Config) (fstype : String) (at_ : RPath) :
    Option MountCall :=
  (concat_absolute cfg.rootfs at_).map (fun t =>
    { source := none, target := t, fstype := some fstype,
      flags := MsFlags.emptyFlags })

/-- One iteration of the user bind-mount loop: recursively
(`MS_BIND | MS_REC`) bind `bm.source` onto
`concat_absolute(rootfs, bm.destination)`. -/
def userMountCall (cfg : Config) (bm : BindMount) : Option MountCall :=
  (concat_absolute cfg.rootfs bm.destination).map (fun t =>
    { source := some bm.source, target := t, fstype := none,
      flags := MS_BIND.union MS_REC })

/-- A Rust `for` loop over `xs` whose body `f` may panic: the calls of the
completed loop in iteration order, or `none` if some iteration panics. -/
def mountEach {α : Type} (f : α → Option MountCall) :
    List α → Option (List MountCall)
  | [] => some []
  | a :: rest =>
    match f a with
    | none => none
    | some c => (mountEach f rest).map (fun cs => c :: cs)

/-- The full sequence of `nix::mount::mount` calls performed by `run_init`,
in program order; `none` models a panic (in particular a
`concat_absolute` unwrap failure).  `resolved` stands for the result of
`std::fs::canonicalize("/etc/resolv.conf")`. -/
def runInitMounts (cfg : Config) (resolved : RPath) :
    Option (List MountCall) := do
  let devs ← mountEach (devMountCall cfg) dev_overlays
  let rc ← resolvMountCall cfg resolved
  let pts ← freshFsMountCall cfg "devpts" ⟨true, ["dev", "pts"]⟩
  let shm ← freshFsMountCall cfg "tmpfs" ⟨true, ["dev", "shm"]⟩
  let runm ← freshFsMountCall cfg "tmpfs" ⟨true, ["run"]⟩
  let tmpm ← freshFsMountCall cfg "tmpfs" ⟨true, ["tmp"]⟩
  let ums ← mountEach (userMountCall cfg) cfg.bind_mounts
  pure ([rootBindCall cfg, rootRemountCall cfg] ++ devs ++ [rc] ++
    [pts, shm, runm, tmpm] ++ ums)

/-- The thirteen mounts before the user bind-mount loop, as `run_init`
issues them. -/
def fixedMounts (cfg : Config) (resolved : RPath) : List MountCall :=
  [rootBindCall cfg, rootRemountCall cfg] ++
  dev_overlays.map (fun f =>
    { source := some ⟨true, ["dev", f]⟩,
      target := ⟨cfg.rootfs.absolute, cfg.rootfs.components ++ ["dev", f]⟩,
      fstype := none, flags := MS_BIND }) ++
  [{ source := some resolved,
     target := ⟨cfg.rootfs.absolute,
       cfg.rootfs.components ++ ["etc", "resolv.conf"]⟩,
     fstype := none, flags := MS_BIND }] ++
  [{ source := none,
     target := ⟨cfg.rootfs.absolute, cfg.rootfs.components ++ ["dev", "pts"]⟩,
     fstype := some "devpts", flags := MsFlags.emptyFlags },
   { source := none,
     target := ⟨cfg.rootfs.absolute, cfg.rootfs.components ++ ["dev", "shm"]⟩,
     fstype := some "tmpfs", flags := MsFlags.emptyFlags },
   { source := none,
     target := ⟨cfg.rootfs.absolute, cfg.rootfs.components ++ ["run"]⟩,
     fstype := some "tmpfs", flags := MsFlags.emptyFlags },
   { source := none,
     target := ⟨cfg.rootfs.absolute, cfg.rootfs.components ++ ["tmp"]⟩,
     fstype := some "tmpfs", flags := MsFlags.emptyFlags }]

/-- Every mount before the user loop succeeds and is as listed in
`fixedMounts`; the whole trace is those thirteen mounts followed by the
user bind mounts, or a panic if some user destination is relative. -/
theorem runInitMounts_eq (cfg : Config) (resolved : RPath) :
    runInitMounts cfg resolved =
      (mountEach (userMountCall cfg) cfg.bind_mounts).map
        (fun ums => fixedMounts cfg resolved ++ ums) := by
  cases hu : mountEach (userMountCall cfg) cfg.bind_mounts with
  | none =>
    simp [runInitMounts, hu, mountEach, devMountCall, dev_overlays,
      resolvMountCall, freshFsMountCall, concat_absolute, stripRoot,
      devSlash, resolvConfPath, RPath.join]
  | some ums =>
    simp [runInitMounts, hu, mountEach, devMountCall, dev_overlays,
      resolvMountCall, freshFsMountCall, concat_absolute, stripRoot,
      devSlash, resolvConfPath, RPath.join, fixedMounts]

/-- A concrete configuration (no user bind mounts) used by witnesses. -/
def cfg0 : Config :=
  { rootfs := ⟨true, ["var", "lib", "sandbox"]⟩, user := ⟨1000, 1000⟩,
    process := ⟨["/bin/true"]⟩, bind_mounts := [] }

/-- A concrete configuration with two user bind mounts, used by
witnesses. -/
def cfg1 : Config :=
  { rootfs := ⟨true, ["sandbox"]⟩, user := ⟨0, 0⟩,
    process := ⟨["ls", "-l"]⟩,
    bind_mounts :=
      [{ destination := ⟨true, ["data"]⟩, source := ⟨true, ["host", "data"]⟩ },
       { destination := ⟨true, ["opt"]⟩, source := ⟨true, ["srv", "opt"]⟩ }] }

/-- A concrete canonicalized resolv.conf path used by witnesses. -/
def resolv0 : RPath := ⟨true, ["run", "resolvconf", "resolv.conf"]⟩

/-- The explicit form of one successful user bind-mount call. -/
def userCallShape (cfg : Config) (bm : BindMount) : MountCall :=
  { source := some bm.source,
    target := ⟨cfg.rootfs.absolute,
      cfg.rootfs.components ++ bm.destination.components⟩,
    fstype := none, flags := MS_BIND.union MS_REC }

/-- A user bind-mount iteration that does not panic produces exactly the
recursive bind of its source onto the joined destination. -/
theorem userMountCall_some (cfg : Config) (bm : BindMount) (c : MountCall)
    (h : userMountCall cfg bm = some c) : c = userCallShape cfg bm := by
  by_cases hba : bm.destination.absolute = true
  · have he : userMountCall cfg bm = some (userCallShape cfg bm) := by
      simp [userMountCall, concat_absolute, stripRoot, hba, RPath.join,
        userCallShape]
    rw [he] at h
    exact (Option.some.inj h).symm
  · simp [userMountCall, concat_absolute, stripRoot, hba] at h

/-- If the user bind-mount loop completes, it produced exactly one
recursive bind mount per record entry, in list order. -/
theorem mountEach_user_eq (cfg : Config) (l : List BindMount) :
    ∀ ums, mountEach (userMountCall cfg) l = some ums →
      ums = l.map (userCallShape cfg) := by
  induction l with
  | nil =>
    intro ums h
    simp [mountEach] at h
    simp [h.symm]
  | cons bm rest ih =>
    intro ums h
    simp only [mountEach] at h
    split at h
    · cases h
    · rename_i c huc
      obtain ⟨cs, hcs, hum⟩ := Option.map_eq_some'.mp h
      subst hum
      rw [List.map_cons, ← userMountCall_some cfg bm c huc, ih cs hcs]

/-- C3: run_init makes the root read-only in two steps in this order: a
bind mount of rootfs onto itself with only `MS_BIND`, then a remount of the
same mount point with `MS_REMOUNT | MS_BIND | MS_RDONLY`; the read-only
flag is not part of the initial bind mount's flags. -/
theorem readonly_root_two_step (cfg : Config) (resolved : RPath)
    (tr : List MountCall) (h : runInitMounts cfg resolved = some tr) :
    tr.take 2 =
      [{ source := some cfg.rootfs, target := cfg.rootfs, fstype := none,
         flags := MS_BIND },
       { source := some cfg.rootfs, target := cfg.rootfs, fstype := none,
         flags := (MS_REMOUNT.union MS_BIND).union MS_RDONLY }] ∧
    MS_BIND.rdonly = false := by
  rw [runInitMounts_eq] at h
  obtain ⟨ums, -, rfl⟩ := Option.map_eq_some'.mp h
  constructor
  · simp [fixedMounts, rootBindCall, rootRemountCall, dev_overlays]
  · rfl

/-- Witness for C3 on a concrete configuration whose mount trace
evaluates. -/
theorem readonly_root_two_step_witness :
    (((runInitMounts cfg0 resolv0).getD []).take 2 =
      [{ source := some cfg0.rootfs, target := cfg0.rootfs, fstype := none,
         flags := MS_BIND },
       { source := some cfg0.rootfs, target := cfg0.rootfs, fstype := none,
         flags := (MS_REMOUNT.union MS_BIND).union MS_RDONLY }] ∧
    MS_BIND.rdonly = false) :=
  readonly_root_two_step cfg0 resolv0 _ rfl

/-- C4: positions 2..7 of the mount trace are exactly one `MS_BIND` mount
per allow-listed device name — tty, null, zero, full, random, urandom —
from host `/dev/<name>` onto rootfs-relative `/dev/<name>`, and nothing
else. -/
theorem dev_allowlist (cfg : Config) (resolved : RPath)
    (tr : List MountCall) (h : runInitMounts cfg resolved = some tr) :
    (tr.drop 2).take 6 =
      ["tty", "null", "zero", "full", "random", "urandom"].map (fun f =>
        ({ source := some ⟨true, ["dev", f]⟩,
           target := ⟨cfg.rootfs.absolute,
             cfg.rootfs.components ++ ["dev", f]⟩,
           fstype := none, flags := MS_BIND } : MountCall)) := by
  rw [runInitMounts_eq] at h
  obtain ⟨ums, -, rfl⟩ := Option.map_eq_some'.mp h
  simp [fixedMounts, dev_overlays]

/-- Witness for C4 on a concrete configuration. -/
theorem dev_allowlist_witness :
    ((((runInitMounts cfg0 resolv0).getD []).drop 2).take 6 =
      ["tty", "null", "zero", "full", "random", "urandom"].map (fun f =>
        ({ source := some ⟨true, ["dev", f]⟩,
           target := ⟨cfg0.rootfs.absolute,
             cfg0.rootfs.components ++ ["dev", f]⟩,
           fstype := none, flags := MS_BIND } : MountCall))) :=
  dev_allowlist cfg0 resolv0 _ rfl

/-- C5: when run_init completes its mounts, the trace is the thirteen
fixed mounts followed by exactly one recursive (`MS_BIND | MS_REC`) bind
mount per `bind_mounts` entry, in the record's order, each of its source
onto rootfs joined with its destination taken as rootfs-relative; in
particular the entries after position 13 are the record mapped in order,
never reordered. -/
theorem user_bind_mounts_in_order (cfg : Config) (resolved : RPath)
    (tr : List MountCall) (h : runInitMounts cfg resolved = some tr) :
    tr = fixedMounts cfg resolved ++
      cfg.bind_mounts.map (userCallShape cfg) ∧
    tr.drop 13 = cfg.bind_mounts.map (userCallShape cfg) := by
  rw [runInitMounts_eq] at h
  obtain ⟨ums, hu, rfl⟩ := Option.map_eq_some'.mp h
  rw [mountEach_user_eq cfg cfg.bind_mounts ums hu]
  refine ⟨rfl, ?_⟩
  rw [show (13 : Nat) = (fixedMounts cfg resolved).length by
    simp [fixedMounts, dev_overlays]]
  exact List.drop_left _ _

/-- Witness for C5 on a concrete configuration with two bind mounts. -/
theorem user_bind_mounts_in_order_witness :
    ((runInitMounts cfg1 resolv0).getD [] = fixedMounts cfg1 resolv0 ++
      cfg1.bind_mounts.map (userCallShape cfg1) ∧
    ((runInitMounts cfg1 resolv0).getD []).drop 13 =
      cfg1.bind_mounts.map (userCallShape cfg1)) :=
  user_bind_mounts_in_order cfg1 resolv0 _ rfl

/-- Rust `nix::sys::wait::WaitStatus`, restricted to the shapes a wait can
report. -/
inductive WaitStatus where
  | Exited (pid : Nat) (code : Int)
  | Signaled (pid : Nat) (signal : Nat) (coreDumped : Bool)
  | Stopped (pid : Nat) (signal : Nat)
  | Continued (pid : Nat)
deriving DecidableEq, Repr

/-- Whether a status is a clean exit of the tracked child — the only shape
the reap loop's `if let` plus pid comparison accepts. -/
def matchesChild (child_pid : Nat) : WaitStatus → Bool
  | WaitStatus.Exited pid _ => pid == child_pid
  | _ => false

/-- The PID-1 reap loop of run_init over the finite list of statuses the
kernel delivers, in order: `if let Exited(pid, code) = status` and
`pid == child_pid` exits with `code` (printing a diagnostic when the code
is non-zero); every other status is discarded and the loop waits again.
`none` means the list was exhausted with the loop still waiting. -/
def reapLoop (child_pid : Nat) : List WaitStatus → Option Int
  | [] => none
  | WaitStatus.Exited pid code :: rest =>
    if pid = child_pid then some code else reapLoop child_pid rest
  | _ :: rest => reapLoop child_pid rest

/-- The outer process's handling of the status `waitpid(init_pid)`
returns: an `Exited(_, code)` shape (any pid) yields `code`, anything
else panics. -/
def initWaitCode : WaitStatus → Option Int
  | WaitStatus.Exited _ code => some code
  | _ => none

/-- The tool's overall exit code: the reap loop's exit code becomes the
init process's exit status, which the kernel reports to the outer
process's `waitpid` as `Exited(init_pid, code)`, and `main` then calls
`exit` with that code. -/
def overallExitCode (child_pid : Nat) (ss : List WaitStatus)
    (init_pid : Nat) : Option Int :=
  (reapLoop child_pid ss).bind (fun c =>
    initWaitCode (WaitStatus.Exited init_pid c))

/-- Statuses that never match the tracked child are skipped without
affecting the reap loop's result. -/
theorem reapLoop_skip (child_pid : Nat) (pre l : List WaitStatus)
    (hpre : ∀ s ∈ pre, matchesChild child_pid s = false) :
    reapLoop child_pid (pre ++ l) = reapLoop child_pid l := by
  induction pre with
  | nil => rfl
  | cons s rest ih =>
    have hs := hpre s (List.mem_cons_self s rest)
    have hrest := fun t ht => hpre t (List.mem_cons_of_mem s ht)
    cases s with
    | Exited p c =>
      simp only [matchesChild, beq_eq_false_iff_ne, ne_eq] at hs
      simp [reapLoop, hs, ih hrest]
    | Signaled p sig core => simp [reapLoop, ih hrest]
    | Stopped p sig => simp [reapLoop, ih hrest]
    | Continued p => simp [reapLoop, ih hrest]

/-- C1: when the tracked child's clean exit with code C is reaped (after
any number of non-matching statuses), the reap loop exits with C, and the
outer process, observing init's exit status, propagates C as the tool's
overall exit code. -/
theorem exit_code_propagation (child_pid init_pid : Nat)
    (pre post : List WaitStatus) (C : Int)
    (hpre : ∀ s ∈ pre, matchesChild child_pid s = false) :
    reapLoop child_pid (pre ++ WaitStatus.Exited child_pid C :: post) =
      some C ∧
    overallExitCode child_pid
      (pre ++ WaitStatus.Exited child_pid C :: post) init_pid = some C := by
  have hr : reapLoop child_pid
      (pre ++ WaitStatus.Exited child_pid C :: post) = some C := by
    rw [reapLoop_skip child_pid pre _ hpre]
    simp [reapLoop]
  exact ⟨hr, by simp [overallExitCode, hr, initWaitCode]⟩

/-- Witness for C1: two non-matching statuses (a foreign pid's exit and a
signal report for the tracked pid) are skipped, then the tracked exit with
code 42 is propagated. -/
theorem exit_code_propagation_witness :
    reapLoop 5 ([WaitStatus.Exited 7 0, WaitStatus.Signaled 5 9 false] ++
      WaitStatus.Exited 5 42 :: [WaitStatus.Exited 8 1]) = some 42 ∧
    overallExitCode 5 ([WaitStatus.Exited 7 0, WaitStatus.Signaled 5 9 false] ++
      WaitStatus.Exited 5 42 :: [WaitStatus.Exited 8 1]) 2 = some 42 :=
  exit_code_propagation 5 2 [WaitStatus.Exited 7 0, WaitStatus.Signaled 5 9 false]
    [WaitStatus.Exited 8 1] 42 (by decide)

/-- C8: the reap loop terminates only by reaping a clean exit carrying the
tracked pid — any exit code it returns comes from an `Exited` status of
the tracked child in the delivered list — and a `Signaled` status for the
tracked child is never matched: appending it leaves the loop's result
unchanged, so the loop keeps waiting. -/
theorem reap_loop_only_clean_exit (child_pid : Nat) (ss : List WaitStatus) :
    (∀ c, reapLoop child_pid ss = some c →
      WaitStatus.Exited child_pid c ∈ ss) ∧
    (∀ sig core, reapLoop child_pid
        (ss ++ [WaitStatus.Signaled child_pid sig core]) =
      reapLoop child_pid ss) := by
  constructor
  · induction ss with
    | nil => intro c h; cases h
    | cons s rest ih =>
      intro c h
      cases s with
      | Exited p c0 =>
        by_cases hp : p = child_pid
        · subst hp
          simp [reapLoop] at h
          rw [h]
          exact List.mem_cons_self _ _
        · simp only [reapLoop, if_neg hp] at h
          exact List.mem_cons_of_mem _ (ih c h)
      | Signaled p sig core =>
        simp only [reapLoop] at h
        exact List.mem_cons_of_mem _ (ih c h)
      | Stopped p sig =>
        simp only [reapLoop] at h
        exact List.mem_cons_of_mem _ (ih c h)
      | Continued p =>
        simp only [reapLoop] at h
        exact List.mem_cons_of_mem _ (ih c h)
  · intro sig core
    induction ss with
    | nil => simp [reapLoop]
    | cons s rest ih =>
      cases s with
      | Exited p c0 =>
        by_cases hp : p = child_pid
        · simp [reapLoop, hp]
        · simp [reapLoop, hp, ih]
      | Signaled p s0 c0 => simp [reapLoop, ih]
      | Stopped p s0 => simp [reapLoop, ih]
      | Continued p => simp [reapLoop, ih]

/-- Witness for C8: a returned code 2 for tracked pid 5 comes from an
`Exited 5 2` status in the list, and appending `Signaled 5 9` to a
non-matching list leaves the loop still waiting. -/
theorem reap_loop_only_clean_exit_witness :
    WaitStatus.Exited 5 2 ∈
      [WaitStatus.Signaled 5 9 false, WaitStatus.Exited 5 2] ∧
    reapLoop 5 ([WaitStatus.Exited 7 0] ++ [WaitStatus.Signaled 5 9 false]) =
      reapLoop 5 [WaitStatus.Exited 7 0] :=
  ⟨(reap_loop_only_clean_exit 5
      [WaitStatus.Signaled 5 9 false, WaitStatus.Exited 5 2]).1 2 (by decide),
   (reap_loop_only_clean_exit 5 [WaitStatus.Exited 7 0]).2 9 false⟩

/-- A process environment, as the map a variable lookup observes. -/
def EnvMap : Type := String → Option String

/-- Rust `std::env::set_var`: point update of the environment map. -/
def setVar (env : EnvMap) (k v : String) : EnvMap :=
  fun q => if q = k then some v else env q

/-- The PATH value for `uid == 0`. -/
def root_path_value : String :=
  "/usr/local/sbin:/usr/local/bin:/usr/sbin:/usr/bin:/sbin:/bin"

/-- The PATH value for non-zero uid. -/
def user_path_value : String := "/usr/local/bin:/usr/bin:/bin"

/-- The exec child's environment after the PATH reset at the top of the
fork child in run_init: `set_var("PATH", ...)` with the value chosen by
`cfg.user.uid == 0`. -/
def childEnvAfterReset (cfg : Config) (inherited : EnvMap) : EnvMap :=
  if cfg.user.uid = 0 then setVar inherited "PATH" root_path_value
  else setVar inherited "PATH" user_path_value

/-- C2: after the reset, PATH is exactly the root-style fixed string when
`user.uid = 0` and exactly the user-style fixed string otherwise,
whatever PATH the child inherited; no other variable is touched. -/
theorem path_reset (cfg : Config) (inherited : EnvMap) :
    childEnvAfterReset cfg inherited "PATH" =
      some (if cfg.user.uid = 0 then
        "/usr/local/sbin:/usr/local/bin:/usr/sbin:/usr/bin:/sbin:/bin"
      else "/usr/local/bin:/usr/bin:/bin") ∧
    (∀ k, k ≠ "PATH" → childEnvAfterReset cfg inherited k = inherited k) := by
  constructor
  · by_cases h : cfg.user.uid = 0 <;>
      simp [childEnvAfterReset, setVar, root_path_value, user_path_value, h]
  · intro k hk
    by_cases h : cfg.user.uid = 0 <;>
      simp [childEnvAfterReset, setVar, h, hk]

/-- Witness for C2: with uid 0 and an inherited environment that carries a
host PATH, the reset yields the root-style value and leaves HOME alone. -/
theorem path_reset_witness :
    childEnvAfterReset cfg1
      (setVar (fun _ => none) "PATH" "/host/bin") "PATH" =
      some (if cfg1.user.uid = 0 then
        "/usr/local/sbin:/usr/local/bin:/usr/sbin:/usr/bin:/sbin:/bin"
      else "/usr/local/bin:/usr/bin:/bin") ∧
    childEnvAfterReset cfg1
      (setVar (fun _ => none) "PATH" "/host/bin") "HOME" =
      setVar (fun _ => none) "PATH" "/host/bin" "HOME" :=
  ⟨(path_reset cfg1 (setVar (fun _ => none) "PATH" "/host/bin")).1,
   (path_reset cfg1 (setVar (fun _ => none) "PATH" "/host/bin")).2 "HOME"
     (by decide)⟩

/-- The observable fate of the fork child in run_init. -/
inductive ChildOutcome where
  | execed (prog : String) (argv : List String)
  | exitedAfterDiag (code : Int)
  | panicked
deriving DecidableEq, Repr

/-- Rust `CString::new`: fails (so `.unwrap()` panics) exactly on an interior
NUL byte. -/
def cstring_new (s : String) : Option String :=
  if s.data.contains (Char.ofNat 0) then none else some s

/-- The argv conversion
`args.iter().map(|a| CString::new(a).unwrap()).collect()`, left to right,
panicking on the first failure. -/
def mapCString : List String → Option (List String)
  | [] => some []
  | a :: rest =>
    match cstring_new a with
    | none => none
    | some c => (mapCString rest).map (fun cs => c :: cs)

/-- The fork child of run_init after the PATH reset: index `args[0]`
(panicking when the list is empty), build the C strings, then
`execvp(args[0], args)`; if the exec fails, print a diagnostic and
`exit(1)`; if it succeeds this code is replaced by the target and never
returns. -/
def execChild (cfg : Config) (execSucceeds : Bool) : ChildOutcome :=
  match cfg.process.args[0]? with
  | none => ChildOutcome.panicked
  | some a0 =>
    match cstring_new a0 with
    | none => ChildOutcome.panicked
    | some prog =>
      match mapCString cfg.process.args with
      | none => ChildOutcome.panicked
      | some argv =>
        if execSucceeds then ChildOutcome.execed prog argv
        else ChildOutcome.exitedAfterDiag 1

/-- NUL-free strings convert to themselves. -/
theorem mapCString_clean (l : List String)
    (h : ∀ s ∈ l, s.data.contains (Char.ofNat 0) = false) :
    mapCString l = some l := by
  induction l with
  | nil => rfl
  | cons a rest ih =>
    have ha : Char.ofNat 0 ∉ a.data := by
      simpa using h a (List.mem_cons_self a rest)
    simp [mapCString, cstring_new, ha,
      ih (fun t ht => h t (List.mem_cons_of_mem a ht))]

/-- C7: for a non-empty, NUL-free argument list the child execs
`args[0]` with the whole list passed verbatim as argv (a successful exec
never returns to this code), and a failed exec prints a diagnostic and
exits with status exactly 1. -/
theorem exec_child_spec (cfg : Config) (a0 : String) (rest : List String)
    (hargs : cfg.process.args = a0 :: rest)
    (hnul : ∀ s ∈ cfg.process.args, s.data.contains (Char.ofNat 0) = false) :
    execChild cfg true = ChildOutcome.execed a0 (a0 :: rest) ∧
    execChild cfg false = ChildOutcome.exitedAfterDiag 1 := by
  have hmap : mapCString cfg.process.args = some (a0 :: rest) := by
    rw [mapCString_clean cfg.process.args hnul, hargs]
  have h0 : cfg.process.args[0]? = some a0 := by rw [hargs]; simp
  have ha0 : cstring_new a0 = some a0 := by
    have ha : Char.ofNat 0 ∉ a0.data := by
      simpa using hnul a0 (by rw [hargs]; exact List.mem_cons_self _ _)
    simp [cstring_new, ha]
  constructor <;> simp [execChild, h0, ha0, hmap]

/-- Witness for C7 on the concrete configuration cfg0
(`args = ["/bin/true"]`). -/
theorem exec_child_spec_witness :
    execChild cfg0 true = ChildOutcome.execed "/bin/true" ["/bin/true"] ∧
    execChild cfg0 false = ChildOutcome.exitedAfterDiag 1 :=
  exec_child_spec cfg0 "/bin/true" [] rfl (by decide)

/-- A concrete configuration with an empty argument list. -/
def cfgEmpty : Config :=
  { rootfs := ⟨true, ["sandbox"]⟩, user := ⟨1, 1⟩,
    process := ⟨[]⟩, bind_mounts := [] }

/-- C10: non-emptiness of `process.args` is a genuine precondition of the
exec stage — on an empty list the indexing `args[0]` panics before the
exec call, whether or not exec could succeed, so the child neither execs
nor takes the diagnostic-plus-exit-1 path; on any non-empty list the
indexing succeeds. -/
theorem empty_args_panics (cfg : Config) :
    (cfg.process.args = [] →
      (∀ b, execChild cfg b = ChildOutcome.panicked) ∧
      cfg.process.args[0]? = none) ∧
    (cfg.process.args ≠ [] → ∃ a0, cfg.process.args[0]? = some a0) := by
  constructor
  · intro h
    exact ⟨fun b => by simp [execChild, h], by simp [h]⟩
  · intro h
    cases hl : cfg.process.args with
    | nil => exact absurd hl h
    | cons a rest => exact ⟨a, by simp [hl]⟩

/-- Witness for C10: the empty-args configuration panics for both exec
outcomes, and cfg0's non-empty list indexes successfully. -/
theorem empty_args_panics_witness :
    ((∀ b, execChild cfgEmpty b = ChildOutcome.panicked) ∧
      cfgEmpty.process.args[0]? = none) ∧
    (∃ a0, cfg0.process.args[0]? = some a0) :=
  ⟨(empty_args_panics cfgEmpty).1 rfl,
   (empty_args_panics cfg0).2 (by decide)⟩

/-- One syscall-level step of `main` before the fork, in program order. -/
inductive SysEvent where
  | getEUid
  | getEGid
  | unshareCall (newuser : Bool) (newpid : Bool)
  | fsWrite (path : String) (content : String)
  | setUid (u : Nat)
  | setGid (g : Nat)
  | forkInit
deriving DecidableEq, Repr

/-- Rust `format!("{} {} 1", inside, outside)`: the single map line, width 1. -/
def uidMapLine (inside outside : Nat) : String :=
  toString inside ++ " " ++ toString outside ++ " 1"

/-- The straight-line trace of `main` up to and including the fork:
capture euid and egid, unshare user+PID, write setgroups, uid_map and
gid_map, setuid, setgid, fork.  `euid`/`egid` are the values the two
capture events returned. -/
def mainSetup (cfg : Config) (euid egid : Nat) : List SysEvent :=
  [SysEvent.getEUid, SysEvent.getEGid,
   SysEvent.unshareCall true true,
   SysEvent.fsWrite "/proc/self/setgroups" "deny",
   SysEvent.fsWrite "/proc/self/uid_map" (uidMapLine cfg.user.uid euid),
   SysEvent.fsWrite "/proc/self/gid_map" (uidMapLine cfg.user.gid egid),
   SysEvent.setUid cfg.user.uid,
   SysEvent.setGid cfg.user.gid,
   SysEvent.forkInit]

/-- Is this event a file write to path `p`? -/
def isWriteTo (p : String) : SysEvent → Bool
  | SysEvent.fsWrite q _ => q == p
  | _ => false

/-- Is this event the unshare call? -/
def isUnshare : SysEvent → Bool
  | SysEvent.unshareCall _ _ => true
  | _ => false

/-- Is this event the effective-uid capture? -/
def isGetEUid : SysEvent → Bool
  | SysEvent.getEUid => true
  | _ => false

/-- Index of the first event satisfying `f`. -/
def firstIdx (f : SysEvent → Bool) : List SysEvent → Option Nat
  | [] => none
  | e :: rest =>
    if f e then some 0 else (firstIdx f rest).map (fun n => n + 1)

/-- Content of the first write to path `p`. -/
def writeContent (p : String) : List SysEvent → Option String
  | [] => none
  | SysEvent.fsWrite q c :: rest =>
    if q == p then some c else writeContent p rest
  | _ :: rest => writeContent p rest

/-- C6: in main's trace the effective uid is captured before the unshare,
the unshare (user+PID) precedes the setgroups write, "deny" is written to
setgroups strictly before either map file is written, and each map file
receives the single width-1 line whose inside identity is the
specification's uid (resp. gid) and whose outside identity is the
captured euid (resp. egid). -/
theorem setgroups_before_maps (cfg : Config) (euid egid : Nat) :
    ∃ g u i j k,
      firstIdx isGetEUid (mainSetup cfg euid egid) = some g ∧
      firstIdx isUnshare (mainSetup cfg euid egid) = some u ∧
      firstIdx (isWriteTo "/proc/self/setgroups")
        (mainSetup cfg euid egid) = some i ∧
      firstIdx (isWriteTo "/proc/self/uid_map")
        (mainSetup cfg euid egid) = some j ∧
      firstIdx (isWriteTo "/proc/self/gid_map")
        (mainSetup cfg euid egid) = some k ∧
      g < u ∧ u < i ∧ i < j ∧ i < k ∧
      (mainSetup cfg euid egid)[u]? = some (SysEvent.unshareCall true true) ∧
      writeContent "/proc/self/setgroups" (mainSetup cfg euid egid) =
        some "deny" ∧
      writeContent "/proc/self/uid_map" (mainSetup cfg euid egid) =
        some (uidMapLine cfg.user.uid euid) ∧
      writeContent "/proc/self/gid_map" (mainSetup cfg euid egid) =
        some (uidMapLine cfg.user.gid egid) := by
  refine ⟨0, 2, 3, 4, 5, ?_, ?_, ?_, ?_, ?_, ?_, ?_, ?_, ?_, ?_, ?_, ?_, ?_⟩ <;>
    first
    | rfl
    | decide

end Cbuildrt
